import Mathlib

/-!
# Verification of the `cusip-rs` bulk-validation tool

This file embeds the command-line tool `src/bin/cusip-tool.rs` of the
`cusip-rs` repository in Lean 4 and proves the specification's claims
about it.

The tool depends on the `cusip` library crate (its `parse`,
`build_from_payload` functions and `CUSIPError` type).  The library's
source is not part of the repository snapshot, so those operations are
modelled from the specification (sections 4.1-4.4): each such definition
carries a doc comment starting with `Modelled from the spec:`.  The
tool's own control flow (argument handling, the per-line loop, the
counters, the output streams, exit codes, and the `unwrap` panics) is
embedded directly from `cusip-tool.rs`.
-/

namespace Cusip

/-- Modelled from the spec: §4.1 AlphabetMap `valueOf`.  The allowed
alphabet is '0'-'9' (codepoints 48-57) mapping to 0-9, 'A'-'Z'
(codepoints 65-90) mapping to 10-35, '*' (42) to 36, '@' (64) to 37 and
'#' (35) to 38; every other character is rejected. -/
def charValue (c : Char) : Option Nat :=
  let n := c.toNat
  if 48 ≤ n ∧ n ≤ 57 then some (n - 48)
  else if 65 ≤ n ∧ n ≤ 90 then some (n - 55)
  else if n = 42 then some 36
  else if n = 64 then some 37
  else if n = 35 then some 38
  else none

/-- A character is in the allowed CUSIP alphabet iff `charValue` accepts it. -/
def isAlphabetChar (c : Char) : Bool := (charValue c).isSome

/-- Modelled from the spec: §7 error taxonomy of the `cusip` library
(`InvalidLength`, `InvalidCharacter`, `IncorrectCheckDigit`).  Positions
are 1-indexed as in the spec's examples. -/
inductive CUSIPError where
  | InvalidLength (actual : Nat)
  | InvalidCharacter (position : Nat)
  | IncorrectCheckDigit (was expected : Nat)
deriving DecidableEq, Repr

/-- Modelled from the spec: §3 Identifier — an (immutable) 9-character
sequence produced only by successful validation or repair. -/
structure CUSIP where
  chars : List Char
deriving DecidableEq, Repr

/-- The textual rendering of an identifier (Rust `Display`): its 9
characters, exactly. -/
def render (c : CUSIP) : String := String.mk c.chars

/-- Spec §4.2 step 3: fold a (possibly doubled) value into a single
decimal digit by summing its two decimal digits. -/
def foldValue (v : Nat) : Nat := v / 10 + v % 10

/-- Modelled from the spec: §4.2 ChecksumEngine, steps 1-3.  Maps the
payload characters (the character at 0-based index `i` sits at 1-indexed
position `i+1`) to their folded, position-weighted values; the first
character outside the alphabet fails with `InvalidCharacter` at its
1-indexed position (offset by the starting index `i`). -/
def foldedValues (i : Nat) : List Char → Except CUSIPError (List Nat)
  | [] => .ok []
  | c :: cs =>
    match charValue c with
    | none => .error (.InvalidCharacter (i + 1))
    | some v =>
      (foldedValues (i + 1) cs).map
        (fun rest => foldValue (if (i + 1) % 2 = 0 then 2 * v else v) :: rest)

/-- Modelled from the spec: §4.2 ChecksumEngine `computeCheckDigit`,
steps 4-5: sum the folded values and return `(10 - sum % 10) % 10`. -/
def computeCheckDigit (payload : List Char) : Except CUSIPError Nat :=
  (foldedValues 0 payload).map (fun vs => (10 - vs.sum % 10) % 10)

/-- 1-indexed position of the first character outside the allowed
alphabet (spec §4.3 step 2), `none` when every character is allowed. -/
def scanChars (i : Nat) : List Char → Option Nat
  | [] => none
  | c :: cs => if isAlphabetChar c then scanChars (i + 1) cs else some (i + 1)

/-- Value of a character as a decimal digit '0'-'9', `none` otherwise
(spec §4.3 step 4). -/
def digitVal (c : Char) : Option Nat :=
  let n := c.toNat
  if 48 ≤ n ∧ n ≤ 57 then some (n - 48) else none

/-- The character rendering a decimal digit `d` (0-9). -/
def digitChar (d : Nat) : Char := Char.ofNat (48 + d)

/-- Modelled from the spec: §4.3 Validator `parse`.  Steps in order:
length must be exactly 9 (`InvalidLength`); every character scanned left
to right must be in the allowed alphabet (`InvalidCharacter` at the
first offending 1-indexed position); the expected check digit is
computed over the first 8 characters; the 9th character must be a
decimal digit (`InvalidCharacter` at position 9 otherwise); if it
differs from the expected digit, `IncorrectCheckDigit {was, expected}`;
otherwise the validated identifier. -/
def parse (input : String) : Except CUSIPError CUSIP :=
  if input.data.length ≠ 9 then .error (.InvalidLength input.data.length)
  else
    match scanChars 0 input.data with
    | some p => .error (.InvalidCharacter p)
    | none =>
      match computeCheckDigit (input.data.take 8) with
      | .error e => .error e
      | .ok expected =>
        match digitVal (input.data.getD 8 ' ') with
        | none => .error (.InvalidCharacter 9)
        | some was =>
          if was ≠ expected then .error (.IncorrectCheckDigit was expected)
          else .ok ⟨input.data⟩

/-- Modelled from the spec: §4.4 Repairer / the library's fallible
`build_from_payload`: given an 8-character alphabet-valid payload it
appends the freshly computed check digit; a wrong-length or
non-alphabet payload is a classified error (the spec leaves such calls
outside the contract, and the tool `unwrap`s the result). -/
def build_from_payload (payload : String) : Except CUSIPError CUSIP :=
  if payload.data.length ≠ 8 then .error (.InvalidLength payload.data.length)
  else
    match computeCheckDigit payload.data with
    | .error e => .error e
    | .ok d => .ok ⟨payload.data ++ [digitChar d]⟩

/-! ## The tool (`src/bin/cusip-tool.rs`), embedded from the source -/

/-- A line written to the diagnostic stream (stderr) by the tool: the
per-line error report `eprintln!("Input: {line}; Error: {err}")`, the
two summary lines, or the usage message. -/
inductive Diag where
  | lineError (line : String) (err : CUSIPError)
  | summaryFix (total good bad fixed omitted : Nat)
  | summaryNoFix (total good bad : Nat)
  | usage
deriving DecidableEq, Repr

/-- The mutable state of the tool's main loop: the three `u64` counters
`good`, `bad`, `fixed`, plus the lines emitted so far on stdout and
stderr. -/
structure RunState where
  good : Nat
  bad : Nat
  fixed : Nat
  out : List String
  errLog : List Diag
deriving DecidableEq, Repr

/-- Counter state at the start of `main`: all counters zero, nothing
emitted. -/
def initState : RunState := ⟨0, 0, 0, [], []⟩

/-- One iteration of the tool's `for line in stdin.lock().lines()` loop
body, embedded from `cusip-tool.rs` lines 84-108.  `none` models a
panic: in fix mode, on `IncorrectCheckDigit`, the source slices
`line.as_bytes()[0..8]` (which panics when the line is shorter than 8
bytes) and `unwrap`s `build_from_payload` (which panics on `Err`). -/
def stepLine (fix : Bool) (s : RunState) (line : String) : Option RunState :=
  match parse line with
  | .ok c =>
      some { s with good := s.good + 1,
                    out := s.out ++ (if fix then [render c] else []) }
  | .error (.IncorrectCheckDigit _ _) =>
      if fix then
        if line.data.length < 8 then none
        else
          match build_from_payload (String.mk (line.data.take 8)) with
          | .ok c =>
              some { s with bad := s.bad + 1, fixed := s.fixed + 1,
                            out := s.out ++ [render c] }
          | .error _ => none
      else some { s with bad := s.bad + 1 }
  | .error e =>
      some { s with bad := s.bad + 1,
                    errLog := s.errLog ++ [.lineError line e] }

/-- The tool's main loop over the lines read from stdin.  Each element
is `Except.ok line` for a successfully read line or `Except.error ()`
for a read failure (an I/O error or invalid UTF-8); the source calls
`line.unwrap()`, so a read failure panics (`none`). -/
def runLines (fix : Bool) (s : RunState) : List (Except Unit String) → Option RunState
  | [] => some s
  | .error _ :: _ => none
  | .ok l :: ls =>
    match stepLine fix s l with
    | some s2 => runLines fix s2 ls
    | none => none

/-- The exit status selected at the end of `main`: in fix mode
`if bad > fixed { 1 } else { 0 }`; in non-fix mode the source computes
`(bad == 0) as i32`, which is 1 when `bad` is zero and 0 otherwise. -/
def exitCode (fix : Bool) (s : RunState) : Nat :=
  if fix then (if s.fixed < s.bad then 1 else 0)
  else (if s.bad = 0 then 1 else 0)

/-- Everything observable about one run of the tool: the stdout lines,
the stderr lines, and the process exit status. -/
structure ToolOutput where
  stdout : List String
  stderr : List Diag
  exit : Nat
deriving DecidableEq, Repr

/-- The tool after argument handling: run the loop over the input lines,
append the summary line to stderr, and select the exit status.  `none`
models a panic during the loop. -/
def runTool (fix : Bool) (lines : List (Except Unit String)) : Option ToolOutput :=
  (runLines fix initState lines).map (fun s =>
    if fix then
      { stdout := s.out,
        stderr := s.errLog ++
          [.summaryFix (s.good + s.bad) s.good s.bad s.fixed (s.bad - s.fixed)],
        exit := exitCode true s }
    else
      { stdout := s.out,
        stderr := s.errLog ++ [.summaryNoFix (s.good + s.bad) s.good s.bad],
        exit := exitCode false s })

/-- `main`, embedded from `cusip-tool.rs` lines 66-74: `argv` is the
full `env::args()` vector (program name first).  With exactly two
elements the second of which is `--fix`, run in fix mode; with any
other length than one, print the usage message to stderr and exit 1
without reading any input; otherwise run in non-fix mode. -/
def mainTool (argv : List String) (lines : List (Except Unit String)) : Option ToolOutput :=
  if argv.length = 2 ∧ argv.getD 1 "" = "--fix" then runTool true lines
  else if argv.length ≠ 1 then some ⟨[], [.usage], 1⟩
  else runTool false lines

/-- A run over lines that were all read successfully. -/
def runStr (fix : Bool) (lines : List String) : Option RunState :=
  runLines fix initState (lines.map .ok)

/-- A line the library accepts (counted in `good`). -/
def isGoodLine (l : String) : Bool := (parse l).isOk

/-- A line the library rejects (counted in `bad`). -/
def isBadLine (l : String) : Bool := !(parse l).isOk

/-- A line whose sole defect is an incorrect check digit: the ones fix
mode repairs (counted in `fixed`). -/
def isFixableLine (l : String) : Bool :=
  match parse l with
  | .error (.IncorrectCheckDigit _ _) => true
  | _ => false

-- scratch sanity checks (spec §8.6 concrete scenarios)
example : parse "037833100" = .ok ⟨"037833100".data⟩ := by rfl
example : parse "037833108" = .error (.IncorrectCheckDigit 8 0) := by rfl
example : build_from_payload "03783310" = .ok ⟨"037833100".data⟩ := by rfl
example : parse "03783310" = .error (.InvalidLength 8) := by rfl
example : parse "03783310!" = .error (.InvalidCharacter 9) := by rfl

/-! ## Helper lemmas about the modelled library -/

/-- Every character of the allowed alphabet is ASCII. -/
lemma isAlphabetChar_ascii {c : Char} (h : isAlphabetChar c = true) :
    c.toNat < 128 := by
  by_contra hc
  push_neg at hc
  simp only [isAlphabetChar, charValue] at h
  rw [if_neg (by omega), if_neg (by omega), if_neg (by omega), if_neg (by omega),
    if_neg (by omega)] at h
  simp at h

/-- The rendering of a decimal digit 0-9 is in the allowed alphabet. -/
lemma isAlphabetChar_digitChar {d : Nat} (h : d < 10) :
    isAlphabetChar (digitChar d) = true := by
  interval_cases d <;> rfl

/-- The rendering of a decimal digit 0-9 parses back to that digit. -/
lemma digitVal_digitChar {d : Nat} (h : d < 10) :
    digitVal (digitChar d) = some d := by
  interval_cases d <;> rfl

/-- A scan that finds no offending character means every character is in
the alphabet, and conversely. -/
lemma scanChars_eq_none {l : List Char} : ∀ {i : Nat},
    scanChars i l = none ↔ ∀ c ∈ l, isAlphabetChar c = true := by
  induction l with
  | nil => simp [scanChars]
  | cons c cs ih =>
    intro i
    by_cases hc : isAlphabetChar c = true
    · simp [scanChars, hc, ih]
    · simp [scanChars, hc]

/-- Over an alphabet-valid character list, the checksum's folded values
are defined. -/
lemma foldedValues_ok {l : List Char} (h : ∀ c ∈ l, isAlphabetChar c = true) :
    ∀ i : Nat, ∃ vs, foldedValues i l = .ok vs := by
  induction l with
  | nil => exact fun i => ⟨[], rfl⟩
  | cons c cs ih =>
    intro i
    have hc : isAlphabetChar c = true := h c (.head _)
    obtain ⟨vs, hvs⟩ := ih (fun x hx => h x (.tail _ hx)) (i + 1)
    simp only [isAlphabetChar, Option.isSome_iff_exists] at hc
    obtain ⟨v, hv⟩ := hc
    exact ⟨foldValue (if (i + 1) % 2 = 0 then 2 * v else v) :: vs,
      by simp [foldedValues, hv, hvs, Except.map]⟩

/-- Over an alphabet-valid payload, the check digit is defined and is a
decimal digit. -/
lemma computeCheckDigit_ok {l : List Char} (h : ∀ c ∈ l, isAlphabetChar c = true) :
    ∃ d, computeCheckDigit l = .ok d ∧ d < 10 := by
  obtain ⟨vs, hvs⟩ := foldedValues_ok h 0
  exact ⟨(10 - vs.sum % 10) % 10,
    by simp [computeCheckDigit, hvs, Except.map], Nat.mod_lt _ (by omega)⟩

/-- `build_from_payload` succeeds on every alphabet-valid 8-character
payload, yielding the payload with the computed check digit appended. -/
lemma build_from_payload_ok {p : List Char} (hlen : p.length = 8)
    (h : ∀ c ∈ p, isAlphabetChar c = true) :
    ∃ d, computeCheckDigit p = .ok d ∧ d < 10 ∧
      build_from_payload (String.mk p) = .ok ⟨p ++ [digitChar d]⟩ := by
  obtain ⟨d, hd, hd10⟩ := computeCheckDigit_ok h
  refine ⟨d, hd, hd10, ?_⟩
  simp [build_from_payload, hlen, hd]

/-- Inversion: an `IncorrectCheckDigit` outcome of `parse` guarantees
the input was exactly 9 characters, all in the allowed alphabet. -/
lemma parse_incorrectCheckDigit {l : String} {w e : Nat}
    (h : parse l = .error (.IncorrectCheckDigit w e)) :
    l.data.length = 9 ∧ ∀ c ∈ l.data, isAlphabetChar c = true := by
  simp only [parse] at h
  split at h
  · exact absurd (Except.error.inj h) (by simp)
  · next hlen =>
    push_neg at hlen
    refine ⟨hlen, ?_⟩
    split at h
    · exact absurd (Except.error.inj h) (by simp)
    · next hscan => exact scanChars_eq_none.mp hscan

/-- Appending the computed check digit to an alphabet-valid 8-character
payload yields a string that `parse` validates, returning exactly those
9 characters. -/
lemma parse_append_digit {p : List Char} {d : Nat} (hlen : p.length = 8)
    (halpha : ∀ c ∈ p, isAlphabetChar c = true)
    (hd : computeCheckDigit p = .ok d) (hd10 : d < 10) :
    parse (String.mk (p ++ [digitChar d])) = .ok ⟨p ++ [digitChar d]⟩ := by
  have hdata : (String.mk (p ++ [digitChar d])).data = p ++ [digitChar d] := rfl
  have hall : ∀ c ∈ p ++ [digitChar d], isAlphabetChar c = true := by
    intro c hc
    rcases List.mem_append.mp hc with hc | hc
    · exact halpha c hc
    · rcases List.mem_singleton.mp hc with rfl
      exact isAlphabetChar_digitChar hd10
  have htake : (p ++ [digitChar d]).take 8 = p := List.take_left' hlen
  have hget : (p ++ [digitChar d]).getD 8 ' ' = digitChar d := by
    rw [List.getD_eq_getElem?_getD, List.getElem?_append_right (by omega)]
    simp [hlen]
  simp only [parse, hdata]
  rw [if_neg (by simp [hlen])]
  rw [scanChars_eq_none.mpr hall]
  rw [htake, hd, hget, digitVal_digitChar hd10]
  simp

/-! ## Helper lemmas about one loop iteration -/

/-- Loop body on a line that parses: `good` increments; in fix mode the
identifier is echoed to stdout. -/
lemma stepLine_ok {s : RunState} {l : String} {c : CUSIP}
    (h : parse l = .ok c) (fix : Bool) :
    stepLine fix s l = some { s with
                              good := s.good + 1,
                              out := s.out ++ (if fix then [render c] else []) } := by
  simp [stepLine, h]

/-- Loop body in fix mode on a line with an incorrect check digit: the
slice is in bounds, `build_from_payload` succeeds, the repaired
identifier is echoed, and `bad` and `fixed` both increment. -/
lemma stepLine_fixable {s : RunState} {l : String} {w e : Nat}
    (h : parse l = .error (.IncorrectCheckDigit w e)) :
    ∃ cu, build_from_payload (String.mk (l.data.take 8)) = .ok cu ∧
      stepLine true s l = some { s with
                                 bad := s.bad + 1, fixed := s.fixed + 1,
                                 out := s.out ++ [render cu] } := by
  obtain ⟨h9, hall⟩ := parse_incorrectCheckDigit h
  have htlen : (l.data.take 8).length = 8 := by simp [List.length_take, h9]
  have htall : ∀ c ∈ l.data.take 8, isAlphabetChar c = true :=
    fun c hc => hall c (List.take_subset _ _ hc)
  obtain ⟨d, _, _, hbuild⟩ := build_from_payload_ok htlen htall
  refine ⟨⟨l.data.take 8 ++ [digitChar d]⟩, hbuild, ?_⟩
  have hslen : l.length = l.data.length := rfl
  simp [stepLine, h, hbuild]
  omega

/-- Loop body in non-fix mode on a line with an incorrect check digit:
only `bad` increments. -/
lemma stepLine_icd_nofix {s : RunState} {l : String} {w e : Nat}
    (h : parse l = .error (.IncorrectCheckDigit w e)) :
    stepLine false s l = some { s with bad := s.bad + 1 } := by
  simp [stepLine, h]

/-- Loop body on a line with any other parse error: a diagnostic goes to
stderr and `bad` increments; no repair, no stdout, `fixed` untouched. -/
lemma stepLine_otherError {s : RunState} {l : String} {e : CUSIPError}
    (h : parse l = .error e) (hne : ∀ w x, e ≠ .IncorrectCheckDigit w x)
    (fix : Bool) :
    stepLine fix s l = some { s with
                              bad := s.bad + 1,
                              errLog := s.errLog ++ [.lineError l e] } := by
  cases e with
  | IncorrectCheckDigit w x => exact absurd rfl (hne w x)
  | InvalidLength n => simp [stepLine, h]
  | InvalidCharacter p => simp [stepLine, h]

/-- Unfolding the loop by one successfully read line. -/
lemma runLines_cons {fix : Bool} {s s1 : RunState} {l : String}
    {ls : List (Except Unit String)} (hst : stepLine fix s l = some s1) :
    runLines fix s (.ok l :: ls) = runLines fix s1 ls := by
  simp [runLines, hst]

/-- The main loop over successfully read lines never panics, and its
counters count the corresponding line classes: `good` the accepted
lines, `bad` the rejected ones, `fixed` (in fix mode) the ones whose
only defect is the check digit; in non-fix mode `fixed` and the stdout
stream are untouched. -/
lemma runLines_ok_spec (fix : Bool) :
    ∀ (ls : List String) (s : RunState),
    ∃ s2, runLines fix s (ls.map .ok) = some s2 ∧
      s2.good = s.good + ls.countP isGoodLine ∧
      s2.bad = s.bad + ls.countP isBadLine ∧
      s2.fixed = s.fixed + (if fix then ls.countP isFixableLine else 0) ∧
      (fix = false → s2.out = s.out) := by
  intro ls
  induction ls with
  | nil =>
    intro s
    exact ⟨s, rfl, by simp, by simp, by simp, fun _ => rfl⟩
  | cons l ls ih =>
    intro s
    rw [List.map_cons]
    cases hp : parse l with
    | ok c =>
      have h1 : isGoodLine l = true := by simp [isGoodLine, hp, Except.isOk, Except.toBool]
      have h2 : isBadLine l = false := by simp [isBadLine, hp, Except.isOk, Except.toBool]
      have h3 : isFixableLine l = false := by simp [isFixableLine, hp]
      obtain ⟨s2, hrun, hg, hb, hf, ho⟩ :=
        ih { s with good := s.good + 1,
                    out := s.out ++ (if fix then [render c] else []) }
      simp only at hg hb hf
      refine ⟨s2, ?_, ?_, ?_, ?_, ?_⟩
      · rw [runLines_cons (stepLine_ok hp fix)]; exact hrun
      · simp [List.countP_cons, h1]; omega
      · simp [List.countP_cons, h2]; omega
      · cases fix <;> simp_all [List.countP_cons]
      · intro hfx
        subst hfx
        simpa using ho rfl
    | error e =>
      cases e with
      | IncorrectCheckDigit w x =>
        have h1 : isGoodLine l = false := by simp [isGoodLine, hp, Except.isOk, Except.toBool]
        have h2 : isBadLine l = true := by simp [isBadLine, hp, Except.isOk, Except.toBool]
        have h3 : isFixableLine l = true := by simp [isFixableLine, hp]
        cases fix with
        | true =>
          obtain ⟨cu, _, hst⟩ := stepLine_fixable (s := s) hp
          obtain ⟨s2, hrun, hg, hb, hf, ho⟩ :=
            ih { s with bad := s.bad + 1, fixed := s.fixed + 1,
                        out := s.out ++ [render cu] }
          simp only at hg hb hf
          refine ⟨s2, ?_, ?_, ?_, ?_, ?_⟩
          · rw [runLines_cons hst]; exact hrun
          · simp [List.countP_cons, h1]; omega
          · simp [List.countP_cons, h2]; omega
          · simp only [if_true] at hf ⊢
            simp [List.countP_cons, h3]; omega
          · intro hfx; cases hfx
        | false =>
          obtain ⟨s2, hrun, hg, hb, hf, ho⟩ :=
            ih { s with bad := s.bad + 1 }
          simp only at hg hb hf
          refine ⟨s2, ?_, ?_, ?_, ?_, ?_⟩
          · rw [runLines_cons (stepLine_icd_nofix hp)]; exact hrun
          · simp [List.countP_cons, h1]; omega
          · simp [List.countP_cons, h2]; omega
          · simpa using hf
          · intro hfx; simpa using ho rfl
      | InvalidLength n =>
        have h1 : isGoodLine l = false := by simp [isGoodLine, hp, Except.isOk, Except.toBool]
        have h2 : isBadLine l = true := by simp [isBadLine, hp, Except.isOk, Except.toBool]
        have h3 : isFixableLine l = false := by simp [isFixableLine, hp]
        have hst := stepLine_otherError (s := s) hp
          (by intro w x hh; simp at hh) fix
        obtain ⟨s2, hrun, hg, hb, hf, ho⟩ :=
          ih { s with bad := s.bad + 1,
                      errLog := s.errLog ++ [.lineError l (.InvalidLength n)] }
        simp only at hg hb hf
        refine ⟨s2, ?_, ?_, ?_, ?_, ?_⟩
        · rw [runLines_cons hst]; exact hrun
        · simp [List.countP_cons, h1]; omega
        · simp [List.countP_cons, h2]; omega
        · cases fix <;> simp_all [List.countP_cons]
        · intro hfx; simpa using ho hfx
      | InvalidCharacter p =>
        have h1 : isGoodLine l = false := by simp [isGoodLine, hp, Except.isOk, Except.toBool]
        have h2 : isBadLine l = true := by simp [isBadLine, hp, Except.isOk, Except.toBool]
        have h3 : isFixableLine l = false := by simp [isFixableLine, hp]
        have hst := stepLine_otherError (s := s) hp
          (by intro w x hh; simp at hh) fix
        obtain ⟨s2, hrun, hg, hb, hf, ho⟩ :=
          ih { s with bad := s.bad + 1,
                      errLog := s.errLog ++ [.lineError l (.InvalidCharacter p)] }
        simp only at hg hb hf
        refine ⟨s2, ?_, ?_, ?_, ?_, ?_⟩
        · rw [runLines_cons hst]; exact hrun
        · simp [List.countP_cons, h1]; omega
        · simp [List.countP_cons, h2]; omega
        · cases fix <;> simp_all [List.countP_cons]
        · intro hfx; simpa using ho hfx

/-! ## Helper lemmas about the line counts -/

/-- Every line is either good or bad, never both. -/
lemma isBadLine_eq_not_isGoodLine (l : String) :
    isBadLine l = !(isGoodLine l) := rfl

/-- A fixable line is a bad line. -/
lemma fixable_imp_bad {l : String} (h : isFixableLine l = true) :
    isBadLine l = true := by
  simp only [isFixableLine] at h
  split at h
  · next heq => simp [isBadLine, heq, Except.isOk, Except.toBool]
  · exact absurd h (by simp)

/-- There are at most as many fixable lines as bad lines. -/
lemma countP_fixable_le (ls : List String) :
    ls.countP isFixableLine ≤ ls.countP isBadLine :=
  List.countP_mono_left (fun _ _ h => fixable_imp_bad h)

/-- The good and bad counts partition the lines. -/
lemma countP_good_add_bad (ls : List String) :
    ls.countP isGoodLine + ls.countP isBadLine = ls.length := by
  induction ls with
  | nil => rfl
  | cons l ls ih =>
    have hnb : isBadLine l = !(isGoodLine l) := rfl
    cases hg : isGoodLine l <;>
      simp [List.countP_cons, hg, hnb] <;> omega

/-- The bad and fixable counts agree exactly when every bad line is
fixable. -/
lemma countP_bad_eq_fixable_iff (ls : List String) :
    ls.countP isBadLine = ls.countP isFixableLine ↔
      ∀ l ∈ ls, isBadLine l = true → isFixableLine l = true := by
  induction ls with
  | nil => simp
  | cons l ls ih =>
    have hle := countP_fixable_le ls
    by_cases hb : isBadLine l = true
    · by_cases hf : isFixableLine l = true
      · simp [List.countP_cons, List.forall_mem_cons, hb, hf, ih]
      · simp only [List.countP_cons, List.forall_mem_cons, hb, hf, if_true,
          if_false, Bool.false_eq_true]
        constructor
        · intro h; omega
        · rintro ⟨h, -⟩; exact (h trivial).elim
    · have hf : isFixableLine l = false := by
        cases hhf : isFixableLine l
        · rfl
        · exact absurd (fixable_imp_bad hhf) hb
      simp [List.countP_cons, List.forall_mem_cons, hb, hf, ih]

/-- The main loop splits over a concatenation of inputs. -/
lemma runLines_append (fix : Bool) (as bs : List (Except Unit String)) :
    ∀ s, runLines fix s (as ++ bs) =
      (runLines fix s as).bind (fun s2 => runLines fix s2 bs) := by
  induction as with
  | nil => intro s; simp [runLines]
  | cons a as ih =>
    intro s
    cases a with
    | error u => simp [runLines]
    | ok l =>
      cases hst : stepLine fix s l with
      | none => simp [runLines, hst]
      | some s1 => simp [runLines, hst, ih]

/-! ## The claims -/

/-- C1: the claim states that in non-fix mode the tool exits 0 when
every line parsed and non-zero otherwise, as the tool's own module
documentation also says.  The code computes `(bad == 0) as i32`, which
does the opposite: with the single unparseable line "banana" (`bad = 1`)
it exits 0, and with empty input (`bad = 0`) it exits 1. -/
theorem C1_nofix_exit_status_inverted :
    runStr false ["banana"] =
      some ⟨0, 1, 0, [], [.lineError "banana" (.InvalidLength 6)]⟩ ∧
    (runTool false [.ok "banana"]).map ToolOutput.exit = some 0 ∧
    runStr false [] = some initState ∧
    (runTool false []).map ToolOutput.exit = some 1 :=
  ⟨rfl, rfl, rfl, rfl⟩

/-- C2: in fix mode the run never panics, `bad` counts the rejected
lines, `fixed` counts the lines whose only defect is the check digit,
and the tool exits 0 iff every rejected line was an
`IncorrectCheckDigit` one (equivalently `bad = fixed`), non-zero iff
some bad line remains unfixed. -/
theorem C2_fix_mode_exit_status (lines : List String) :
    ∃ s, runStr true lines = some s ∧
      s.bad = lines.countP isBadLine ∧
      s.fixed = lines.countP isFixableLine ∧
      (exitCode true s = 0 ↔ s.bad = s.fixed) ∧
      (exitCode true s = 0 ↔
        ∀ l ∈ lines, isBadLine l = true → isFixableLine l = true) ∧
      (exitCode true s ≠ 0 ↔
        ∃ l ∈ lines, isBadLine l = true ∧ isFixableLine l = false) := by
  obtain ⟨s, hrun, _, hb, hf, _⟩ := runLines_ok_spec true lines initState
  simp [initState] at hb hf
  have hle : lines.countP isFixableLine ≤ lines.countP isBadLine :=
    countP_fixable_le lines
  have h0 : exitCode true s = 0 ↔ s.bad = s.fixed := by
    show (if s.fixed < s.bad then 1 else 0) = 0 ↔ s.bad = s.fixed
    split_ifs with hc
    · constructor
      · intro h
        exact absurd h (by norm_num)
      · intro h; omega
    · constructor
      · intro h; omega
      · intro h; rfl
  refine ⟨s, hrun, hb, hf, h0, ?_, ?_⟩
  · rw [h0, hb, hf, countP_bad_eq_fixable_iff]
  · rw [Ne, h0, hb, hf, countP_bad_eq_fixable_iff]
    constructor
    · intro h
      push_neg at h
      obtain ⟨l, hl, hbad, hfx⟩ := h
      exact ⟨l, hl, hbad, by simpa using hfx⟩
    · rintro ⟨l, hl, hbad, hfx⟩ h
      exact absurd (h l hl hbad) (by simp [hfx])

/-- Witness for C2 at the single line "037833108", whose only defect is
the check digit: the run counts it bad and fixed, and exits 0. -/
theorem C2_fix_mode_exit_status_witness :
    ∃ s, runStr true ["037833108"] = some s ∧
      s.bad = ["037833108"].countP isBadLine ∧
      s.fixed = ["037833108"].countP isFixableLine ∧
      (exitCode true s = 0 ↔ s.bad = s.fixed) ∧
      (exitCode true s = 0 ↔
        ∀ l ∈ ["037833108"], isBadLine l = true → isFixableLine l = true) ∧
      (exitCode true s ≠ 0 ↔
        ∃ l ∈ ["037833108"], isBadLine l = true ∧ isFixableLine l = false) :=
  C2_fix_mode_exit_status ["037833108"]

/-- C3: in fix mode, a line that parses is echoed to stdout, and a line
failing with `IncorrectCheckDigit` has `build_from_payload` applied to
its first 8 characters and the repaired identifier echoed to stdout. -/
theorem C3_fix_mode_emission (s : RunState) (l : String) :
    (∀ c, parse l = .ok c → stepLine true s l =
      some { s with
             good := s.good + 1,
             out := s.out ++ [render c] }) ∧
    (∀ w e, parse l = .error (.IncorrectCheckDigit w e) →
      ∃ cu, build_from_payload (String.mk (l.data.take 8)) = .ok cu ∧
        stepLine true s l = some { s with
                                   bad := s.bad + 1, fixed := s.fixed + 1,
                                   out := s.out ++ [render cu] }) := by
  constructor
  · intro c hc
    simpa using stepLine_ok hc true
  · intro w e he
    exact stepLine_fixable he

/-- Witness for C3 at the spec's concrete scenarios: "037833100" parses
and is echoed; "037833108" has an incorrect check digit, is repaired
from its first 8 characters, and the repair is echoed. -/
theorem C3_fix_mode_emission_witness :
    stepLine true initState "037833100" =
      some { initState with
             good := initState.good + 1,
             out := initState.out ++ [render ⟨"037833100".data⟩] } ∧
    ∃ cu, build_from_payload (String.mk ("037833108".data.take 8)) = .ok cu ∧
      stepLine true initState "037833108" =
        some { initState with
               bad := initState.bad + 1, fixed := initState.fixed + 1,
               out := initState.out ++ [render cu] } :=
  ⟨(C3_fix_mode_emission initState "037833100").1 ⟨"037833100".data⟩ rfl,
   (C3_fix_mode_emission initState "037833108").2 8 0 rfl⟩

/-- C4: an `IncorrectCheckDigit` outcome of `parse` guarantees the fix
branch is safe: the line is exactly 9 characters, all ASCII, its first
8 characters (so the `[0..8]` slice is in bounds) are alphabet-valid,
and `build_from_payload` on them succeeds, so the `unwrap` never hits
the error case. -/
theorem C4_fix_branch_safe (l : String) (w e : Nat)
    (h : parse l = .error (.IncorrectCheckDigit w e)) :
    l.data.length = 9 ∧ 8 ≤ l.data.length ∧
    (∀ c ∈ l.data, c.toNat < 128) ∧
    (∀ c ∈ l.data.take 8, isAlphabetChar c = true) ∧
    (build_from_payload (String.mk (l.data.take 8))).isOk = true := by
  obtain ⟨h9, hall⟩ := parse_incorrectCheckDigit h
  have htall : ∀ c ∈ l.data.take 8, isAlphabetChar c = true :=
    fun c hc => hall c (List.take_subset _ _ hc)
  obtain ⟨d, _, _, hbuild⟩ := build_from_payload_ok
    (by simp [List.length_take, h9]) htall
  exact ⟨h9, by omega, fun c hc => isAlphabetChar_ascii (hall c hc), htall,
    by simp [hbuild, Except.isOk, Except.toBool]⟩

/-- Witness for C4 at "037833108", which fails with
`IncorrectCheckDigit {was 8, expected 0}`. -/
theorem C4_fix_branch_safe_witness :
    "037833108".data.length = 9 ∧
    (build_from_payload (String.mk ("037833108".data.take 8))).isOk = true :=
  ⟨(C4_fix_branch_safe "037833108" 8 0 rfl).1,
   (C4_fix_branch_safe "037833108" 8 0 rfl).2.2.2.2⟩

/-- C5: in fix mode, a line failing with any error other than
`IncorrectCheckDigit` is only reported to stderr and counted bad:
nothing goes to stdout, no repair happens and `fixed` is unchanged. -/
theorem C5_fix_mode_other_errors_skipped (s : RunState) (l : String)
    (e : CUSIPError) (h : parse l = .error e)
    (hne : ∀ w x, e ≠ .IncorrectCheckDigit w x) :
    ∃ s2, stepLine true s l = some s2 ∧ s2.out = s.out ∧
      s2.fixed = s.fixed ∧ s2.good = s.good ∧ s2.bad = s.bad + 1 ∧
      s2.errLog = s.errLog ++ [.lineError l e] :=
  ⟨_, stepLine_otherError h hne true, rfl, rfl, rfl, rfl, rfl⟩

/-- Witness for C5 at "03783310" (length 8, `InvalidLength`). -/
theorem C5_fix_mode_other_errors_skipped_witness :
    ∃ s2, stepLine true initState "03783310" = some s2 ∧
      s2.out = initState.out ∧ s2.fixed = initState.fixed ∧
      s2.good = initState.good ∧ s2.bad = initState.bad + 1 ∧
      s2.errLog = initState.errLog ++
        [.lineError "03783310" (.InvalidLength 8)] :=
  C5_fix_mode_other_errors_skipped initState "03783310" (.InvalidLength 8) rfl
    (fun _ _ hh => CUSIPError.noConfusion hh)

/-- C7: repair idempotence — building an identifier from any
alphabet-valid 8-character payload succeeds, and parsing the textual
rendering of the result succeeds, returning that same identifier. -/
theorem C7_repair_roundtrip (p : String) (hlen : p.data.length = 8)
    (halpha : ∀ c ∈ p.data, isAlphabetChar c = true) :
    ∃ cu, build_from_payload p = .ok cu ∧ parse (render cu) = .ok cu := by
  obtain ⟨d, hd, hd10, hbuild⟩ := build_from_payload_ok hlen halpha
  exact ⟨⟨p.data ++ [digitChar d]⟩, hbuild,
    parse_append_digit hlen halpha hd hd10⟩

/-- Witness for C7 at the spec's payload "03783310". -/
theorem C7_repair_roundtrip_witness :
    ∃ cu, build_from_payload "03783310" = .ok cu ∧ parse (render cu) = .ok cu :=
  C7_repair_roundtrip "03783310" rfl (by decide)

/-- C8: with any argument list other than none or exactly `--fix`, the
tool prints the usage message to stderr and exits 1, independent of
(and without processing) the input lines. -/
theorem C8_usage_exit (prog : String) (args : List String)
    (lines : List (Except Unit String))
    (h1 : args ≠ []) (h2 : args ≠ ["--fix"]) :
    mainTool (prog :: args) lines = some ⟨[], [.usage], 1⟩ := by
  cases args with
  | nil => exact absurd rfl h1
  | cons a as =>
    have hA : ¬ ((prog :: a :: as).length = 2 ∧
        (prog :: a :: as).getD 1 "" = "--fix") := by
      rintro ⟨hl, hgd⟩
      simp [List.length_cons] at hl
      simp [List.getD] at hgd
      subst hl hgd
      exact h2 rfl
    simp only [mainTool]
    rw [if_neg hA, if_pos (by simp)]

/-- Witness for C8 at a junk argument. -/
theorem C8_usage_exit_witness :
    mainTool ["cusip-tool", "--oops"] [.ok "037833100"] = some ⟨[], [.usage], 1⟩ :=
  C8_usage_exit "cusip-tool" ["--oops"] [.ok "037833100"]
    (by simp) (by simp)

/-- C9: in non-fix mode nothing is ever written to stdout; the per-line
diagnostics and the final summary go to stderr. -/
theorem C9_nofix_stdout_silent (lines : List String) :
    ∃ s, runStr false lines = some s ∧ s.out = [] ∧
      ∃ o, runTool false (lines.map .ok) = some o ∧ o.stdout = [] ∧
        o.stderr = s.errLog ++ [.summaryNoFix (s.good + s.bad) s.good s.bad] := by
  obtain ⟨s, hrun, _, _, _, ho⟩ := runLines_ok_spec false lines initState
  have hout : s.out = [] := by simpa [initState] using ho rfl
  have hrun2 : runLines false initState (lines.map .ok) = some s := hrun
  refine ⟨s, hrun, hout,
    ⟨s.out, s.errLog ++ [.summaryNoFix (s.good + s.bad) s.good s.bad],
      exitCode false s⟩, ?_, hout, rfl⟩
  simp [runTool, hrun2]

/-- Witness for C9 at the single unparseable line "banana". -/
theorem C9_nofix_stdout_silent_witness :
    ∃ s, runStr false ["banana"] = some s ∧ s.out = [] ∧
      ∃ o, runTool false (["banana"].map .ok) = some o ∧ o.stdout = [] ∧
        o.stderr = s.errLog ++ [.summaryNoFix (s.good + s.bad) s.good s.bad] :=
  C9_nofix_stdout_silent ["banana"]

/-- C10: when reading a line from stdin fails, the tool panics on the
`unwrap`: whatever was processed before is discarded, the failing line
is neither counted nor classified nor reported, and no summary or exit
status is produced. -/
theorem C10_read_failure_panics (fix : Bool) (pre : List String)
    (rest : List (Except Unit String)) :
    runTool fix (pre.map .ok ++ .error () :: rest) = none := by
  obtain ⟨s, hrun, _⟩ := runLines_ok_spec fix pre initState
  simp [runTool, runLines_append, hrun, runLines]

/-- Witness for C10: a read failure as the very first input panics the
tool in non-fix mode. -/
theorem C10_read_failure_panics_witness :
    runTool false (([] : List String).map .ok ++ .error () :: []) = none :=
  C10_read_failure_panics false [] []

/-- C6: every processed line increments exactly one of `good` and `bad`
(so `good + bad` is the number of lines), `fixed` never exceeds `bad`,
`fixed` stays 0 in non-fix mode, and the reported summary carries
`good + bad` as total and `bad - fixed` as omitted. -/
theorem C6_counter_invariants (fix : Bool) (lines : List String) :
    ∃ s, runStr fix lines = some s ∧
      s.good + s.bad = lines.length ∧
      s.fixed ≤ s.bad ∧
      (fix = false → s.fixed = 0) ∧
      runTool fix (lines.map .ok) = some
        (if fix then
          { stdout := s.out,
            stderr := s.errLog ++
              [.summaryFix (s.good + s.bad) s.good s.bad s.fixed (s.bad - s.fixed)],
            exit := exitCode true s }
        else
          { stdout := s.out,
            stderr := s.errLog ++ [.summaryNoFix (s.good + s.bad) s.good s.bad],
            exit := exitCode false s }) := by
  obtain ⟨s, hrun, hg, hb, hf, _⟩ := runLines_ok_spec fix lines initState
  simp [initState] at hg hb hf
  have hrun2 : runLines fix initState (lines.map .ok) = some s := hrun
  have hpart := countP_good_add_bad lines
  have hle := countP_fixable_le lines
  refine ⟨s, hrun, by omega, ?_, ?_, ?_⟩
  · cases fix <;> simp_all
  · intro hfx; subst hfx; simpa using hf
  · cases fix <;> simp [runTool, hrun2, exitCode]

/-- Witness for C6 in non-fix mode at the single line "banana". -/
theorem C6_counter_invariants_witness :
    ∃ s, runStr false ["banana"] = some s ∧
      s.good + s.bad = ["banana"].length ∧
      s.fixed ≤ s.bad ∧
      (false = false → s.fixed = 0) ∧
      runTool false (["banana"].map .ok) = some
        (if false then
          { stdout := s.out,
            stderr := s.errLog ++
              [.summaryFix (s.good + s.bad) s.good s.bad s.fixed (s.bad - s.fixed)],
            exit := exitCode true s }
        else
          { stdout := s.out,
            stderr := s.errLog ++ [.summaryNoFix (s.good + s.bad) s.good s.bad],
            exit := exitCode false s }) :=
  C6_counter_invariants false ["banana"]

end Cusip
